import Mathlib

/-!
Verification of the room matchmaking service (`src/app/model.py`, `src/app/api.py`)
against its natural-language specification.

The database tables (`user`, `room`, `room_user`) are embedded as Lean lists; each
model-layer operation becomes a pure function on an explicit store state, returning
`Except DBError _` where the Python code can raise (`InvalidToken`, or SQLAlchemy's
`NoResultFound` escaping from `.one()`).  Table primary keys (`user.id`, `room.id`)
are autoincrement-generated and hence unique; `room.id` generation is modelled by
the `next_room_id` counter.
-/

namespace GameServer

/-- `LiveDifficulty(IntEnum)`: normal = 1, hard = 2. -/
inductive LiveDifficulty
  | normal
  | hard
deriving DecidableEq, Repr

/-- Numeric value of a `LiveDifficulty` (the `IntEnum` code). -/
def LiveDifficulty.toNat : LiveDifficulty → Nat
  | .normal => 1
  | .hard => 2

/-- `JoinRoomResult(IntEnum)`: Ok = 1, RoomFull = 2, Disbanded = 3, OtherError = 4. -/
inductive JoinRoomResult
  | Ok
  | RoomFull
  | Disbanded
  | OtherError
deriving DecidableEq, Repr

/-- `WaitRoomStatus(IntEnum)`: Waiting = 1, LiveStart = 2, Dissoution = 3. -/
inductive WaitRoomStatus
  | Waiting
  | LiveStart
  | Dissoution
deriving DecidableEq, Repr

/-- `RoomMaxUserCount = 4` from model.py. -/
def RoomMaxUserCount : Nat := 4

/-- A row of the `user` table: `SafeUser` plus the token column used for lookup. -/
structure UserRow where
  id : Nat
  name : String
  leader_card_id : Nat
  token : String
deriving DecidableEq, Repr

/-- `SafeUser`: token-free view of a user, as returned by `_get_user_by_token`. -/
structure SafeUser where
  id : Nat
  name : String
  leader_card_id : Nat
deriving DecidableEq, Repr

/-- A row of the `room` table: `(id, live_id, status, owner)`. -/
structure RoomRow where
  id : Nat
  live_id : Nat
  status : WaitRoomStatus
  owner : Nat
deriving DecidableEq, Repr

/-- A row of the `room_user` membership table.  `src/app/model.py` inserts
`(room_id, user_id, select_difficulty)`; the `judge_count_list` / `score`
columns are written only by `end_room`, which api.py calls but which is
missing from `src/app/model.py` — those two nullable columns are modelled
from the spec (§3 RoomMembership: judge_counts and score, nullable until
submitted). -/
structure RoomUserRow where
  room_id : Nat
  user_id : Nat
  select_difficulty : LiveDifficulty
  judge_count_list : Option (List Nat)
  score : Option Int
deriving DecidableEq, Repr

/-- `RoomInfo` response model of `list_room`. -/
structure RoomInfo where
  room_id : Nat
  live_id : Nat
  joined_user_count : Nat
  max_user_count : Nat
deriving DecidableEq, Repr

/-- `RoomUser` response model of `wait_room`. -/
structure RoomUser where
  user_id : Nat
  name : String
  leader_card_id : Nat
  select_difficulty : LiveDifficulty
  is_me : Bool
  is_host : Bool
deriving DecidableEq, Repr

/-- `ResultUser` response model of `result_room`. -/
structure ResultUser where
  user_id : Nat
  judge_count_list : List Nat
  score : Int
deriving DecidableEq, Repr

/-- The persistent store: the three tables plus the autoincrement counter
for `room.id` (`result.lastrowid` in `create_room_with_host`). -/
structure DBState where
  users : List UserRow
  rooms : List RoomRow
  room_users : List RoomUserRow
  next_room_id : Nat
deriving DecidableEq, Repr

/-- Exceptions the model layer can raise: `InvalidToken` (model.py), and
SQLAlchemy's `NoResultFound` escaping from an uncaught `.one()` call. -/
inductive DBError
  | invalidToken
  | noResultFound
deriving DecidableEq, Repr

/-- `_get_user_by_token`: `SELECT id, name, leader_card_id FROM user WHERE token = :token`,
`.one()` caught — `None` when no row matches.  Tokens are uuid4-generated, hence unique. -/
def get_user_by_token (s : DBState) (token : String) : Option SafeUser :=
  (s.users.find? (fun u => u.token == token)).map
    (fun u => ⟨u.id, u.name, u.leader_card_id⟩)

/-- Number of `room_user` rows with the given `room_id` (the `COUNT(*)` of the
grouped join queries). -/
def countMembers (s : DBState) (room_id : Nat) : Nat :=
  (s.room_users.filter (fun ru => ru.room_id == room_id)).length

/-- `_add_user_in_room`: `INSERT INTO room_user (room_id, user_id, select_difficulty)`. -/
def add_user_in_room (s : DBState) (room_id user_id : Nat)
    (select_difficulty : LiveDifficulty) : DBState :=
  { s with room_users :=
      s.room_users ++ [⟨room_id, user_id, select_difficulty, none, none⟩] }

/-- `create_room_with_host(token, live_id, select_difficulty)`:
resolve token (raise `InvalidToken` on failure), insert a room row with
status Waiting and owner = user.id, auto-join the creator, return the
new room id. -/
def create_room_with_host (s : DBState) (token : String) (live_id : Nat)
    (select_difficulty : LiveDifficulty) : Except DBError (Nat × DBState) :=
  match get_user_by_token s token with
  | none => .error .invalidToken
  | some user =>
    let room_id := s.next_room_id
    let s1 : DBState :=
      { s with
        rooms := s.rooms ++ [⟨room_id, live_id, .Waiting, user.id⟩]
        next_room_id := room_id + 1 }
    .ok (room_id, add_user_in_room s1 room_id user.id select_difficulty)

/-- `list_room(live_id)`: grouped inner join of `room` and `room_user` restricted to
status = Waiting, with an extra `live_id` equality condition unless `live_id == 0`.
The inner join emits a group only for rooms having at least one membership row. -/
def list_room (s : DBState) (live_id : Nat) : List RoomInfo :=
  if live_id == 0 then
    (s.rooms.filter (fun r =>
        r.status == WaitRoomStatus.Waiting && 0 < countMembers s r.id)).map
      (fun r => ⟨r.id, r.live_id, countMembers s r.id, 4⟩)
  else
    (s.rooms.filter (fun r =>
        r.status == WaitRoomStatus.Waiting && r.live_id == live_id
          && 0 < countMembers s r.id)).map
      (fun r => ⟨r.id, r.live_id, countMembers s r.id, 4⟩)

/-- `join_room(token, room_id, select_difficulty)`.  The status/count query is an
inner join grouped by room id: it yields a row exactly when the room row exists
AND has at least one membership; otherwise `.one()` raises `NoResultFound`
(uncaught).  Then: count ≥ 4 → RoomFull; status ≠ Waiting → Disbanded; else
insert the membership and return Ok. -/
def join_room (s : DBState) (token : String) (room_id : Nat)
    (select_difficulty : LiveDifficulty) : Except DBError (JoinRoomResult × DBState) :=
  match get_user_by_token s token with
  | none => .error .invalidToken
  | some user =>
    match s.rooms.find? (fun r => r.id == room_id) with
    | none => .error .noResultFound
    | some r =>
      if countMembers s room_id == 0 then .error .noResultFound
      else if RoomMaxUserCount ≤ countMembers s room_id then .ok (.RoomFull, s)
      else if r.status ≠ WaitRoomStatus.Waiting then .ok (.Disbanded, s)
      else .ok (.Ok, add_user_in_room s room_id user.id select_difficulty)

/-- `wait_room(room_id, token)`: resolve token (raise `InvalidToken` on failure);
`SELECT status, owner FROM room WHERE id = :room_id` with `.one()` (raises
`NoResultFound` when the room does not exist); then list the memberships joined
with the `user` table (user ids are unique, so each membership joins at most one
user row), computing `is_me = (caller.id == row.id)` and
`is_host = (room.owner == row.id)`. -/
def wait_room (s : DBState) (room_id : Nat) (token : String) :
    Except DBError (WaitRoomStatus × List RoomUser) :=
  match get_user_by_token s token with
  | none => .error .invalidToken
  | some user =>
    match s.rooms.find? (fun r => r.id == room_id) with
    | none => .error .noResultFound
    | some room =>
      .ok (room.status,
        (s.room_users.filter (fun ru => ru.room_id == room_id)).filterMap
          (fun ru =>
            (s.users.find? (fun u => u.id == ru.user_id)).map
              (fun u =>
                ⟨u.id, u.name, u.leader_card_id, ru.select_difficulty,
                 user.id == u.id, room.owner == u.id⟩)))

/-- `start_room(token, room_id)`: the token/ownership check is commented out in the
source; the operation is a bare `UPDATE room SET status = LiveStart WHERE id = :room_id`
(updating zero rows when no room matches) and never raises. -/
def start_room (s : DBState) (token : String) (room_id : Nat) : DBState :=
  { s with rooms := s.rooms.map (fun r =>
      if r.id == room_id then { r with status := .LiveStart } else r) }

/-- Modelled from the spec: `end_room` is called by `src/app/api.py` (`/room/end`)
but its definition is missing from `src/app/model.py`.  Spec §4.1: resolves the
caller's identity (`InvalidToken` on failure) and records `judge_counts` and
`score` into that caller's own membership row for the given room. -/
def end_room (s : DBState) (token : String) (room_id : Nat)
    (judge_count_list : List Nat) (score : Int) : Except DBError DBState :=
  match get_user_by_token s token with
  | none => .error .invalidToken
  | some user =>
    .ok { s with room_users := s.room_users.map (fun ru =>
        if ru.room_id == room_id && ru.user_id == user.id then
          { ru with judge_count_list := some judge_count_list, score := some score }
        else ru) }

/-- Modelled from the spec: `result_room` is called by `src/app/api.py`
(`/room/result`) but its definition is missing from `src/app/model.py`.
Spec §4.1: returns `{user_id, judge_count_list, score}` for every member of the
room who has already submitted a result (only the submitted subset). -/
def result_room (s : DBState) (room_id : Nat) : List ResultUser :=
  (s.room_users.filter (fun ru => ru.room_id == room_id)).filterMap
    (fun ru =>
      match ru.judge_count_list, ru.score with
      | some j, some sc => some ⟨ru.user_id, j, sc⟩
      | _, _ => none)

/-- Modelled from the spec: `leave_room` is called by `src/app/api.py`
(`/room/leave`) but its definition is missing from `src/app/model.py`.
Spec §4.1: resolves the caller (`InvalidToken` on failure) and removes the
caller's membership row from the room. -/
def leave_room (s : DBState) (token : String) (room_id : Nat) :
    Except DBError DBState :=
  match get_user_by_token s token with
  | none => .error .invalidToken
  | some user =>
    .ok { s with room_users := s.room_users.filter (fun ru =>
        !(ru.room_id == room_id && ru.user_id == user.id)) }

/-- One client request against the Room Store. -/
inductive Op
  | createRoom (token : String) (live_id : Nat) (d : LiveDifficulty)
  | listRoom (live_id : Nat)
  | joinRoom (token : String) (room_id : Nat) (d : LiveDifficulty)
  | waitRoom (room_id : Nat) (token : String)
  | startRoom (token : String) (room_id : Nat)
  | endRoom (token : String) (room_id : Nat) (j : List Nat) (score : Int)
  | leaveRoom (token : String) (room_id : Nat)

/-- Effect of one operation on the store.  Each Python operation runs inside a
single `engine.begin()` transaction, so a raised exception rolls back: every
error path here occurs before any write, leaving the state unchanged. -/
def applyOp (s : DBState) : Op → DBState
  | .createRoom t l d =>
    match create_room_with_host s t l d with
    | .ok (_, s1) => s1
    | .error _ => s
  | .listRoom _ => s
  | .joinRoom t rid d =>
    match join_room s t rid d with
    | .ok (_, s1) => s1
    | .error _ => s
  | .waitRoom _ _ => s
  | .startRoom t rid => start_room s t rid
  | .endRoom t rid j sc =>
    match end_room s t rid j sc with
    | .ok s1 => s1
    | .error _ => s
  | .leaveRoom t rid =>
    match leave_room s t rid with
    | .ok s1 => s1
    | .error _ => s

/-- The empty Room Store over a fixed user directory (the spec treats user
accounts as an external collaborator); MySQL autoincrement ids start at 1. -/
def initState (users : List UserRow) : DBState := ⟨users, [], [], 1⟩

/-- States of the Room Store reachable by sequential execution of operations. -/
inductive Reachable (users : List UserRow) : DBState → Prop
  | init : Reachable users (initState users)
  | step (s : DBState) (op : Op) : Reachable users s → Reachable users (applyOp s op)

/-! ### Concrete fixtures and spec-side models -/

/-- A registered user (`user` table row). -/
def userA : UserRow := ⟨1, "alice", 1000, "token-a"⟩

/-- A second registered user. -/
def userB : UserRow := ⟨2, "bob", 1001, "token-b"⟩

/-- A two-user directory used for concrete executions. -/
def usersW : List UserRow := [userA, userB]

/-- Store after alice creates room 1 (live 10, difficulty normal). -/
def sRoom1 : DBState := applyOp (initState usersW) (.createRoom "token-a" 10 .normal)

/-- Store after bob additionally joins room 1 three times (4 memberships:
nothing in the code prevents repeated joins by the same user). -/
def sFull : DBState :=
  applyOp (applyOp (applyOp sRoom1 (.joinRoom "token-b" 1 .normal))
    (.joinRoom "token-b" 1 .normal)) (.joinRoom "token-b" 1 .normal)

/-- Follows the spec's words (§4.1 `list_rooms`): a single description where
`song_id == 0` is a wildcard matching every song, restricted to Waiting rooms
with at least one member, reporting the actual member count and max 4.
Compared against `list_room`, which is translated from the source's two
separate SQL queries. -/
def list_room_spec (s : DBState) (live_id : Nat) : List RoomInfo :=
  (s.rooms.filter (fun r =>
      r.status == WaitRoomStatus.Waiting
        && (live_id == 0 || r.live_id == live_id)
        && 0 < countMembers s r.id)).map
    (fun r => ⟨r.id, r.live_id, countMembers s r.id, 4⟩)

/-! ### Store invariant -/

/-- Invariants maintained by every operation: membership count of any room id is
at most `RoomMaxUserCount`; room ids and membership room ids are below the
autoincrement counter; no room ever has status `Dissoution`. -/
def StoreInv (s : DBState) : Prop :=
  (∀ rid, countMembers s rid ≤ RoomMaxUserCount) ∧
  (∀ r ∈ s.rooms, r.id < s.next_room_id) ∧
  (∀ ru ∈ s.room_users, ru.room_id < s.next_room_id) ∧
  (∀ r ∈ s.rooms, r.status = WaitRoomStatus.Waiting ∨ r.status = WaitRoomStatus.LiveStart)

theorem countMembers_append_one (s : DBState) (ru : RoomUserRow) (x : Nat) :
    countMembers { s with room_users := s.room_users ++ [ru] } x
      = countMembers s x + (if ru.room_id = x then 1 else 0) := by
  by_cases hx : ru.room_id = x <;>
    simp [countMembers, List.filter_append, hx]

theorem countMembers_add_user (s : DBState) (rid uid : Nat) (d : LiveDifficulty) (x : Nat) :
    countMembers (add_user_in_room s rid uid d) x
      = countMembers s x + (if rid = x then 1 else 0) :=
  countMembers_append_one s _ x

theorem countMembers_eq_zero_of_not_mem (s : DBState) (x : Nat)
    (h : ∀ ru ∈ s.room_users, ru.room_id ≠ x) : countMembers s x = 0 := by
  simp only [countMembers, List.length_eq_zero, List.filter_eq_nil_iff]
  intro ru hru
  simpa using h ru hru

theorem length_filter_map_eq {α : Type} (l : List α) (f : α → α) (p : α → Bool)
    (hp : ∀ a, p (f a) = p a) :
    ((l.map f).filter p).length = (l.filter p).length := by
  induction l with
  | nil => rfl
  | cons a t ih =>
    by_cases ha : p a <;>
      simp [List.filter_cons, hp, ha, ih]

theorem countMembers_filter_le (s : DBState) (q : RoomUserRow → Bool) (x : Nat) :
    countMembers { s with room_users := s.room_users.filter q } x ≤ countMembers s x :=
  ((List.filter_sublist _).filter _).length_le

/-- `countMembers` reads only the `room_users` table. -/
theorem countMembers_set_rooms (s : DBState) (R : List RoomRow) (n : Nat) (x : Nat) :
    countMembers { s with rooms := R, next_room_id := n } x = countMembers s x := rfl

/-- `StoreInv` is preserved by every single operation. -/
theorem storeInv_applyOp (s : DBState) (op : Op) (h : StoreInv s) :
    StoreInv (applyOp s op) := by
  obtain ⟨hcnt, hroom, hru, hst⟩ := h
  cases op with
  | listRoom _ => exact ⟨hcnt, hroom, hru, hst⟩
  | waitRoom _ _ => exact ⟨hcnt, hroom, hru, hst⟩
  | createRoom t l d =>
    simp only [applyOp, create_room_with_host]
    cases hu : get_user_by_token s t with
    | none => exact ⟨hcnt, hroom, hru, hst⟩
    | some u =>
      simp only [add_user_in_room]
      refine ⟨?_, ?_, ?_, ?_⟩
      · intro rid
        have hzero : countMembers s s.next_room_id = 0 :=
          countMembers_eq_zero_of_not_mem s _ (fun ru hm => Nat.ne_of_lt (hru ru hm))
        have h4 : countMembers s rid ≤ 4 := hcnt rid
        show (List.filter (fun ru => ru.room_id == rid)
            (s.room_users ++ [⟨s.next_room_id, u.id, d, none, none⟩])).length ≤ 4
        rw [List.filter_append, List.length_append]
        simp only [countMembers] at hzero h4
        by_cases hx : s.next_room_id = rid
        · subst hx; simp [hzero]
        · simp [hx]; omega
      · intro r hr
        rcases List.mem_append.mp hr with hl | hl
        · exact Nat.lt_succ_of_lt (hroom r hl)
        · simp at hl; subst hl; exact Nat.lt_succ_self _
      · intro ru hm
        rcases List.mem_append.mp hm with hl | hl
        · exact Nat.lt_succ_of_lt (hru ru hl)
        · simp at hl; subst hl; exact Nat.lt_succ_self _
      · intro r hr
        rcases List.mem_append.mp hr with hl | hl
        · exact hst r hl
        · simp at hl; subst hl; left; rfl
  | joinRoom t rid d =>
    simp only [applyOp, join_room]
    cases hu : get_user_by_token s t with
    | none => exact ⟨hcnt, hroom, hru, hst⟩
    | some u =>
      cases hf : s.rooms.find? (fun r => r.id == rid) with
      | none => exact ⟨hcnt, hroom, hru, hst⟩
      | some r =>
        by_cases h0 : countMembers s rid = 0
        · simp [h0]; exact ⟨hcnt, hroom, hru, hst⟩
        · by_cases h4 : RoomMaxUserCount ≤ countMembers s rid
          · simp [h0, h4]; exact ⟨hcnt, hroom, hru, hst⟩
          · by_cases hw : r.status = WaitRoomStatus.Waiting
            · simp [h0, h4, hw]
              have hrid : r.id = rid := by simpa using List.find?_some hf
              have hrmem : r ∈ s.rooms := List.mem_of_find?_eq_some hf
              refine ⟨?_, hroom, ?_, hst⟩
              · intro x
                have hx4 : countMembers s x ≤ 4 := hcnt x
                have hlt : countMembers s rid < 4 := by
                  have := Nat.lt_of_not_le h4
                  simpa [RoomMaxUserCount] using this
                have hstep := countMembers_add_user s rid u.id d x
                show countMembers (add_user_in_room s rid u.id d) x ≤ 4
                rw [hstep]
                by_cases hx : rid = x
                · subst hx
                  have h1 : (if rid = rid then 1 else 0) = 1 := by simp
                  omega
                · have h1 : (if rid = x then 1 else 0) = 0 := by simp [hx]
                  omega
              · intro ru hm
                rcases List.mem_append.mp hm with hl | hl
                · exact hru ru hl
                · simp at hl; subst hl
                  simpa [hrid] using hroom r hrmem
            · simp [h0, h4, hw]; exact ⟨hcnt, hroom, hru, hst⟩
  | startRoom t rid =>
    simp only [applyOp, start_room]
    refine ⟨hcnt, ?_, hru, ?_⟩
    · intro r hr
      rcases List.mem_map.mp hr with ⟨r0, hr0, heq⟩
      have hid : r.id = r0.id := by
        subst heq; by_cases h : r0.id = rid <;> simp [h]
      rw [hid]; exact hroom r0 hr0
    · intro r hr
      rcases List.mem_map.mp hr with ⟨r0, hr0, heq⟩
      subst heq
      by_cases h : r0.id = rid <;> simp [h, hst r0 hr0]
  | endRoom t rid j sc =>
    simp only [applyOp, end_room]
    cases hu : get_user_by_token s t with
    | none => exact ⟨hcnt, hroom, hru, hst⟩
    | some u =>
      refine ⟨?_, hroom, ?_, hst⟩
      · intro x
        have heq : ∀ a : RoomUserRow,
            (((if a.room_id == rid && a.user_id == u.id then
                { a with judge_count_list := some j, score := some sc } else a).room_id == x))
              = (a.room_id == x) := by
          intro a
          by_cases h : a.room_id == rid && a.user_id == u.id <;> simp [h]
        have hlen := length_filter_map_eq s.room_users
          (fun a => if a.room_id == rid && a.user_id == u.id then
              { a with judge_count_list := some j, score := some sc } else a)
          (fun a => a.room_id == x) heq
        have hx4 : countMembers s x ≤ 4 := hcnt x
        show countMembers _ x ≤ 4
        simp only [countMembers] at hx4 ⊢
        omega
      · intro ru hm
        rcases List.mem_map.mp hm with ⟨ru0, hr0, heq⟩
        have hid : ru.room_id = ru0.room_id := by
          subst heq
          by_cases h : ru0.room_id == rid && ru0.user_id == u.id <;> simp [h]
        rw [hid]; exact hru ru0 hr0
  | leaveRoom t rid =>
    simp only [applyOp, leave_room]
    cases hu : get_user_by_token s t with
    | none => exact ⟨hcnt, hroom, hru, hst⟩
    | some u =>
      refine ⟨?_, hroom, ?_, hst⟩
      · intro x
        exact Nat.le_trans (countMembers_filter_le s _ x) (hcnt x)
      · intro ru hm
        exact hru ru (List.mem_of_mem_filter hm)

/-- Every reachable state satisfies the store invariant. -/
theorem reachable_storeInv (users : List UserRow) (s : DBState)
    (h : Reachable users s) : StoreInv s := by
  induction h with
  | init =>
    refine ⟨?_, ?_, ?_, ?_⟩ <;> simp [initState, countMembers]
  | step s op _ ih => exact storeInv_applyOp s op ih

theorem map_id_of_eq {α : Type} (l : List α) (f : α → α) (h : ∀ a ∈ l, f a = a) :
    l.map f = l := by
  induction l with
  | nil => rfl
  | cons a t ih =>
    simp only [List.map_cons, h a (by simp)]
    rw [ih (fun b hb => h b (by simp [hb]))]

/-! ### Claim theorems -/

/-- C1: every reachable state of the Room Store has at most 4 memberships per
room — no operation ever raises a room's membership count above
`RoomMaxUserCount` — and `join_room` on a room that already has 4 or more
members returns `RoomFull` leaving the store unchanged (no insert). -/
theorem room_capacity_bounded (users : List UserRow) (s : DBState)
    (h : Reachable users s) :
    (∀ rid, countMembers s rid ≤ RoomMaxUserCount) ∧
    (∀ token u rid d r,
      get_user_by_token s token = some u →
      s.rooms.find? (fun r0 => r0.id == rid) = some r →
      RoomMaxUserCount ≤ countMembers s rid →
      join_room s token rid d = Except.ok (JoinRoomResult.RoomFull, s)) := by
  refine ⟨(reachable_storeInv users s h).1, ?_⟩
  intro token u rid d r hu hf hfull
  have h0 : ¬(countMembers s rid = 0) := by
    intro h0
    rw [h0] at hfull
    simp [RoomMaxUserCount] at hfull
  simp [join_room, hu, hf, h0, hfull]

/-- Witness for C1 at a concrete reachable store with a full room: room 1 of
`sFull` has exactly 4 memberships and a further join returns `RoomFull`
without changing the store. -/
theorem room_capacity_bounded_witness :
    countMembers sFull 1 ≤ RoomMaxUserCount ∧
    join_room sFull "token-b" 1 LiveDifficulty.normal
      = Except.ok (JoinRoomResult.RoomFull, sFull) := by
  have hreach : Reachable usersW sFull :=
    Reachable.step _ _ (Reachable.step _ _ (Reachable.step _ _
      (Reachable.step _ _ Reachable.init)))
  have h := room_capacity_bounded usersW sFull hreach
  exact ⟨h.1 1,
    h.2 "token-b" ⟨2, "bob", 1001⟩ 1 .normal ⟨1, 10, .Waiting, 1⟩
      (by decide) (by decide) (by decide)⟩

/-- C10: no operation ever sets a room's status to Dissolved — in every
reachable state, every room's status is Waiting or LiveStart. -/
theorem no_dissolution_reachable (users : List UserRow) (s : DBState)
    (h : Reachable users s) :
    ∀ r ∈ s.rooms,
      r.status = WaitRoomStatus.Waiting ∨ r.status = WaitRoomStatus.LiveStart :=
  (reachable_storeInv users s h).2.2.2

/-- Witness for C10 at a concrete reachable store: the room of `sRoom1` after
`start_room` has status LiveStart (in particular not Dissoution). -/
theorem no_dissolution_reachable_witness :
    (⟨1, 10, WaitRoomStatus.LiveStart, 1⟩ : RoomRow).status = WaitRoomStatus.Waiting ∨
    (⟨1, 10, WaitRoomStatus.LiveStart, 1⟩ : RoomRow).status = WaitRoomStatus.LiveStart :=
  no_dissolution_reachable usersW (applyOp sRoom1 (.startRoom "token-b" 1))
    (Reachable.step _ _ (Reachable.step _ _ Reachable.init))
    ⟨1, 10, WaitRoomStatus.LiveStart, 1⟩ (by decide)

/-- C4: `create_room_with_host` raises `InvalidToken` on an unresolvable token,
performing no writes; otherwise it appends a Room row with status Waiting and
owner = the resolved user's id, appends a membership row for (new room, user,
chosen difficulty), and returns the newly generated room id — the creator is
auto-joined, so the owner is a member immediately after creation. -/
theorem create_room_with_host_spec (s : DBState) (token : String) (live_id : Nat)
    (d : LiveDifficulty) :
    (get_user_by_token s token = none →
      create_room_with_host s token live_id d = Except.error DBError.invalidToken ∧
      applyOp s (Op.createRoom token live_id d) = s) ∧
    (∀ u, get_user_by_token s token = some u →
      ∃ s', create_room_with_host s token live_id d = Except.ok (s.next_room_id, s') ∧
        s'.users = s.users ∧
        s'.rooms = s.rooms ++ [⟨s.next_room_id, live_id, WaitRoomStatus.Waiting, u.id⟩] ∧
        s'.room_users = s.room_users ++ [⟨s.next_room_id, u.id, d, none, none⟩] ∧
        ∃ r ∈ s'.rooms, r.id = s.next_room_id ∧ r.owner = u.id ∧
          r.status = WaitRoomStatus.Waiting ∧
          ∃ ru ∈ s'.room_users, ru.room_id = s.next_room_id ∧
            ru.user_id = r.owner ∧ ru.select_difficulty = d) := by
  constructor
  · intro hu
    constructor
    · simp [create_room_with_host, hu]
    · simp [applyOp, create_room_with_host, hu]
  · intro u hu
    refine ⟨{ users := s.users,
              rooms := s.rooms ++ [⟨s.next_room_id, live_id, WaitRoomStatus.Waiting, u.id⟩],
              room_users := s.room_users ++ [⟨s.next_room_id, u.id, d, none, none⟩],
              next_room_id := s.next_room_id + 1 },
      by simp [create_room_with_host, hu, add_user_in_room], rfl, rfl, rfl, ?_⟩
    refine ⟨⟨s.next_room_id, live_id, WaitRoomStatus.Waiting, u.id⟩, by simp, rfl, rfl, rfl,
      ⟨s.next_room_id, u.id, d, none, none⟩, by simp [add_user_in_room], rfl, rfl, rfl⟩

/-- Witness for C4 at concrete inputs: an unresolvable token fails with no
write, and alice's create produces room 1 (Waiting, owner 1) with alice as
the single member. -/
theorem create_room_with_host_spec_witness :
    (create_room_with_host (initState usersW) "bad-token" 10 LiveDifficulty.normal
        = Except.error DBError.invalidToken ∧
      applyOp (initState usersW) (Op.createRoom "bad-token" 10 LiveDifficulty.normal)
        = initState usersW) ∧
    (∃ s', create_room_with_host (initState usersW) "token-a" 10 LiveDifficulty.normal
        = Except.ok ((initState usersW).next_room_id, s') ∧
      s'.users = (initState usersW).users ∧
      s'.rooms = (initState usersW).rooms
        ++ [⟨(initState usersW).next_room_id, 10, WaitRoomStatus.Waiting, 1⟩] ∧
      s'.room_users = (initState usersW).room_users
        ++ [⟨(initState usersW).next_room_id, 1, LiveDifficulty.normal, none, none⟩] ∧
      ∃ r ∈ s'.rooms, r.id = (initState usersW).next_room_id ∧ r.owner = 1 ∧
        r.status = WaitRoomStatus.Waiting ∧
        ∃ ru ∈ s'.room_users, ru.room_id = (initState usersW).next_room_id ∧
          ru.user_id = r.owner ∧ ru.select_difficulty = LiveDifficulty.normal) :=
  ⟨(create_room_with_host_spec (initState usersW) "bad-token" 10
      LiveDifficulty.normal).1 (by decide),
   (create_room_with_host_spec (initState usersW) "token-a" 10
      LiveDifficulty.normal).2 ⟨1, "alice", 1000⟩ (by decide)⟩

/-- C6: `start_room` sets the addressed room's status to LiveStart
unconditionally — the result does not depend on the token at all (no identity
or ownership check) — and changes nothing else: users, memberships, the id
counter, and every room with a different id are untouched; when no room
matches `room_id`, the store is entirely unchanged. -/
theorem start_room_unconditional (s : DBState) (token token' : String) (rid : Nat) :
    (start_room s token rid).users = s.users ∧
    (start_room s token rid).room_users = s.room_users ∧
    (start_room s token rid).next_room_id = s.next_room_id ∧
    start_room s token rid = start_room s token' rid ∧
    (∀ i : Nat, (start_room s token rid).rooms[i]? =
      (s.rooms[i]?).map (fun r =>
        if r.id = rid then { r with status := WaitRoomStatus.LiveStart } else r)) ∧
    ((∀ r ∈ s.rooms, r.id ≠ rid) → start_room s token rid = s) := by
  refine ⟨rfl, rfl, rfl, rfl, ?_, ?_⟩
  · intro i
    simp only [start_room, List.getElem?_map]
    cases h : s.rooms[i]? with
    | none => rfl
    | some r =>
      by_cases hr : r.id = rid <;> simp [hr]
  · intro hall
    have hmap : s.rooms.map (fun r =>
        if r.id == rid then { r with status := WaitRoomStatus.LiveStart } else r)
        = s.rooms := by
      apply map_id_of_eq
      intro r hr
      simp [hall r hr]
    simp only [start_room, hmap]

/-- Witness for C6 at concrete inputs: starting room 1 of `sRoom1` flips its
status to LiveStart regardless of the (unknown) token, and starting the
nonexistent room 2 leaves the store unchanged. -/
theorem start_room_unconditional_witness :
    (start_room sRoom1 "bad-token" 1).rooms[0]? =
      (sRoom1.rooms[0]?).map (fun r =>
        if r.id = 1 then { r with status := WaitRoomStatus.LiveStart } else r) ∧
    start_room sRoom1 "bad-token" 2 = sRoom1 :=
  ⟨(start_room_unconditional sRoom1 "bad-token" "token-a" 1).2.2.2.2.1 0,
   (start_room_unconditional sRoom1 "bad-token" "token-a" 2).2.2.2.2.2
     (by decide)⟩

/-- C5: `list_room` returns exactly the Waiting rooms with at least one member
— filtered by song unless `live_id == 0`, the wildcard — reporting the actual
member count and `max_user_count = 4`; the source's two SQL branches coincide
with the spec's single wildcard description, and every reported room is a
Waiting room with at least one member (song-matching when `live_id ≠ 0`). -/
theorem list_room_correct (s : DBState) (live_id : Nat) :
    list_room s live_id = list_room_spec s live_id ∧
    (∀ info ∈ list_room s live_id, ∃ r ∈ s.rooms,
      info.room_id = r.id ∧ info.live_id = r.live_id ∧
      r.status = WaitRoomStatus.Waiting ∧
      info.joined_user_count = countMembers s r.id ∧ 0 < countMembers s r.id ∧
      info.max_user_count = 4 ∧ (live_id ≠ 0 → r.live_id = live_id)) := by
  have hbranch : list_room s live_id = list_room_spec s live_id := by
    by_cases h0 : live_id = 0
    · subst h0
      simp only [list_room, list_room_spec]
      rw [if_pos (by simp)]
      congr 1
      apply List.filter_congr
      intro r _
      simp
    · simp only [list_room, list_room_spec]
      rw [if_neg (by simpa using h0)]
      congr 1
      apply List.filter_congr
      intro r _
      have hb : (live_id == 0) = false := by simpa using h0
      simp [hb]
  refine ⟨hbranch, ?_⟩
  intro info hinfo
  rw [hbranch] at hinfo
  simp only [list_room_spec, List.mem_map] at hinfo
  obtain ⟨r, hr, heq⟩ := hinfo
  rw [List.mem_filter] at hr
  obtain ⟨hrmem, hcond⟩ := hr
  simp only [Bool.and_eq_true, beq_iff_eq, Bool.or_eq_true, decide_eq_true_eq] at hcond
  refine ⟨r, hrmem, ?_, ?_, hcond.1.1, ?_, hcond.2, ?_, ?_⟩
  · rw [← heq]
  · rw [← heq]
  · rw [← heq]
  · rw [← heq]
  · intro hne
    rcases hcond.1.2 with h | h
    · exact absurd h hne
    · exact h

/-- Witness for C5 at a concrete store: in `sFull` (one Waiting room with 4
members), both the wildcard listing and the exclusion property hold for the
single reported room. -/
theorem list_room_correct_witness :
    list_room sFull 0 = list_room_spec sFull 0 ∧
    ∃ r ∈ sFull.rooms,
      (⟨1, 10, 4, 4⟩ : RoomInfo).room_id = r.id ∧
      (⟨1, 10, 4, 4⟩ : RoomInfo).live_id = r.live_id ∧
      r.status = WaitRoomStatus.Waiting ∧
      (⟨1, 10, 4, 4⟩ : RoomInfo).joined_user_count = countMembers sFull r.id ∧
      0 < countMembers sFull r.id ∧
      (⟨1, 10, 4, 4⟩ : RoomInfo).max_user_count = 4 ∧ ((0 : Nat) ≠ 0 → r.live_id = 0) :=
  ⟨(list_room_correct sFull 0).1,
   (list_room_correct sFull 0).2 ⟨1, 10, 4, 4⟩ (by decide)⟩

/-- C3 counterexample: with a token that resolves to a user (alice) and a
`room_id` (1) that matches no room, `join_room` does not return `OtherError`
— the uncaught `.one()` raises `NoResultFound` instead of producing any
`JoinRoomResult`. -/
theorem join_room_nonexistent_room_raises :
    get_user_by_token (initState usersW) "token-a" = some ⟨1, "alice", 1000⟩ ∧
    join_room (initState usersW) "token-a" 1 LiveDifficulty.normal
      = Except.error DBError.noResultFound :=
  ⟨by decide, by rfl⟩

/-- C3 amended: for a token resolving to a user, `join_room` raises
`NoResultFound` when `room_id` matches no room (and likewise when the room has
zero membership rows, since the count query is an inner join) — rather than
returning `OtherError`; otherwise, first match wins: member count ≥ 4 →
`RoomFull`; status ≠ Waiting → `Disbanded`; else it inserts a membership with
the chosen difficulty and returns `Ok`. -/
theorem join_room_decision_order (s : DBState) (token : String) (u : SafeUser)
    (rid : Nat) (d : LiveDifficulty)
    (hu : get_user_by_token s token = some u) :
    (s.rooms.find? (fun r => r.id == rid) = none →
      join_room s token rid d = Except.error DBError.noResultFound) ∧
    (∀ r, s.rooms.find? (fun r0 => r0.id == rid) = some r →
      (countMembers s rid = 0 →
        join_room s token rid d = Except.error DBError.noResultFound) ∧
      (0 < countMembers s rid → RoomMaxUserCount ≤ countMembers s rid →
        join_room s token rid d = Except.ok (JoinRoomResult.RoomFull, s)) ∧
      (0 < countMembers s rid → countMembers s rid < RoomMaxUserCount →
        r.status ≠ WaitRoomStatus.Waiting →
        join_room s token rid d = Except.ok (JoinRoomResult.Disbanded, s)) ∧
      (0 < countMembers s rid → countMembers s rid < RoomMaxUserCount →
        r.status = WaitRoomStatus.Waiting →
        join_room s token rid d =
          Except.ok (JoinRoomResult.Ok, add_user_in_room s rid u.id d))) := by
  constructor
  · intro hf
    simp [join_room, hu, hf]
  · intro r hf
    refine ⟨?_, ?_, ?_, ?_⟩
    · intro h0
      simp [join_room, hu, hf, h0]
    · intro hpos hfull
      have h0 : ¬(countMembers s rid = 0) := by omega
      simp [join_room, hu, hf, h0, hfull]
    · intro hpos hlt hw
      have h0 : ¬(countMembers s rid = 0) := by omega
      have h4 : ¬(RoomMaxUserCount ≤ countMembers s rid) := by omega
      simp [join_room, hu, hf, h0, h4, hw]
    · intro hpos hlt hw
      have h0 : ¬(countMembers s rid = 0) := by omega
      have h4 : ¬(RoomMaxUserCount ≤ countMembers s rid) := by omega
      simp [join_room, hu, hf, h0, h4, hw]

/-- Witness for C3 (amended) at concrete inputs: in `sRoom1` (room 1 Waiting
with alice as its only member), bob's join succeeds and inserts bob's
membership row. -/
theorem join_room_decision_order_witness :
    join_room sRoom1 "token-b" 1 LiveDifficulty.normal =
      Except.ok (JoinRoomResult.Ok, add_user_in_room sRoom1 1 2 LiveDifficulty.normal) :=
  ((join_room_decision_order sRoom1 "token-b" ⟨2, "bob", 1001⟩ 1 LiveDifficulty.normal
      (by decide)).2 ⟨1, 10, WaitRoomStatus.Waiting, 1⟩ (by decide)).2.2.2
    (by decide) (by decide) (by decide)

/-- C7 counterexample: `start_room` (whose token check is commented out in the
source) does not resolve the caller's identity first — with a token that
resolves to no user it still writes to the Room Store, mutating room 1 of
`sRoom1` instead of raising `InvalidToken`. -/
theorem start_room_writes_without_token :
    get_user_by_token sRoom1 "bad-token" = none ∧
    start_room sRoom1 "bad-token" 1 ≠ sRoom1 := by
  constructor <;> decide

/-- C7 amended: every token-taking operation except `start_room` — that is,
`create_room_with_host`, `join_room`, `wait_room`, and (modelled from the
spec) `end_room` and `leave_room` — resolves the caller's identity first and,
when resolution fails, aborts with `InvalidToken` having performed no writes;
`start_room` skips identity resolution entirely and writes unconditionally. -/
theorem token_resolution_first (s : DBState) (token : String)
    (h : get_user_by_token s token = none) :
    (∀ l d, create_room_with_host s token l d = Except.error DBError.invalidToken ∧
      applyOp s (Op.createRoom token l d) = s) ∧
    (∀ rid d, join_room s token rid d = Except.error DBError.invalidToken ∧
      applyOp s (Op.joinRoom token rid d) = s) ∧
    (∀ rid, wait_room s rid token = Except.error DBError.invalidToken) ∧
    (∀ rid j sc, end_room s token rid j sc = Except.error DBError.invalidToken ∧
      applyOp s (Op.endRoom token rid j sc) = s) ∧
    (∀ rid, leave_room s token rid = Except.error DBError.invalidToken ∧
      applyOp s (Op.leaveRoom token rid) = s) := by
  refine ⟨?_, ?_, ?_, ?_, ?_⟩
  · intro l d
    exact ⟨by simp [create_room_with_host, h], by simp [applyOp, create_room_with_host, h]⟩
  · intro rid d
    exact ⟨by simp [join_room, h], by simp [applyOp, join_room, h]⟩
  · intro rid
    simp [wait_room, h]
  · intro rid j sc
    exact ⟨by simp [end_room, h], by simp [applyOp, end_room, h]⟩
  · intro rid
    exact ⟨by simp [leave_room, h], by simp [applyOp, leave_room, h]⟩

/-- Witness for C7 (amended) at concrete inputs: on `sRoom1` with the
unresolvable token, create/join/wait/end/leave all fail with `InvalidToken`
and leave the store unchanged. -/
theorem token_resolution_first_witness :
    (create_room_with_host sRoom1 "bad-token" 10 LiveDifficulty.normal
        = Except.error DBError.invalidToken ∧
      applyOp sRoom1 (Op.createRoom "bad-token" 10 LiveDifficulty.normal) = sRoom1) ∧
    (join_room sRoom1 "bad-token" 1 LiveDifficulty.normal
        = Except.error DBError.invalidToken ∧
      applyOp sRoom1 (Op.joinRoom "bad-token" 1 LiveDifficulty.normal) = sRoom1) ∧
    wait_room sRoom1 1 "bad-token" = Except.error DBError.invalidToken ∧
    (end_room sRoom1 "bad-token" 1 [1, 2, 3] 900 = Except.error DBError.invalidToken ∧
      applyOp sRoom1 (Op.endRoom "bad-token" 1 [1, 2, 3] 900) = sRoom1) ∧
    (leave_room sRoom1 "bad-token" 1 = Except.error DBError.invalidToken ∧
      applyOp sRoom1 (Op.leaveRoom "bad-token" 1) = sRoom1) := by
  have h := token_resolution_first sRoom1 "bad-token" (by decide)
  exact ⟨h.1 10 LiveDifficulty.normal, h.2.1 1 LiveDifficulty.normal, h.2.2.1 1,
    h.2.2.2.1 1 [1, 2, 3] 900, h.2.2.2.2 1⟩

theorem length_filterMap_of_isSome {α β : Type} (l : List α) (g : α → Option β)
    (h : ∀ a ∈ l, (g a).isSome) : (l.filterMap g).length = l.length := by
  induction l with
  | nil => rfl
  | cons a t ih =>
    obtain ⟨b, hb⟩ := Option.isSome_iff_exists.mp (h a (by simp))
    rw [List.filterMap_cons_some hb]
    simp only [List.length_cons]
    rw [ih (fun x hx => h x (by simp [hx]))]

theorem filter_filterMap_length {α β : Type} (l : List α) (g : α → Option β)
    (p : β → Bool) (q : α → Bool)
    (hsome : ∀ a ∈ l, (g a).isSome)
    (hpq : ∀ a ∈ l, ∀ b, g a = some b → p b = q a) :
    ((l.filterMap g).filter p).length = (l.filter q).length := by
  induction l with
  | nil => rfl
  | cons a t ih =>
    obtain ⟨b, hb⟩ := Option.isSome_iff_exists.mp (hsome a (by simp))
    rw [List.filterMap_cons_some hb, List.filter_cons, List.filter_cons,
      hpq a (by simp) b hb]
    have iht := ih (fun x hx => hsome x (by simp [hx]))
      (fun x hx => hpq x (by simp [hx]))
    cases hq : q a <;> simp [iht]

/-- C8 counterexample: bob's token resolves and room 1 of `sRoom1` exists, yet
`wait_room` returns a member list with zero `is_me` entries (bob is not a
member), contradicting "exactly one returned entry has is_me == true". -/
theorem wait_room_is_me_zero :
    get_user_by_token sRoom1 "token-b" = some ⟨2, "bob", 1001⟩ ∧
    sRoom1.rooms.find? (fun r => r.id == 1) = some ⟨1, 10, WaitRoomStatus.Waiting, 1⟩ ∧
    wait_room sRoom1 1 "token-b" =
      Except.ok (WaitRoomStatus.Waiting,
        [⟨1, "alice", 1000, LiveDifficulty.normal, false, true⟩]) ∧
    (([⟨1, "alice", 1000, LiveDifficulty.normal, false, true⟩] : List RoomUser).filter
        (fun v => v.is_me)).length = 0 :=
  ⟨by decide, by decide, by rfl, by decide⟩

/-- C8 amended: for a caller whose token resolves and an existing room (each
member's user row being resolvable), `wait_room` returns the room's current
status with one view per membership; `is_me` is true exactly for entries whose
user_id equals the caller's id and `is_host` exactly for entries whose user_id
equals the room's owner; the number of `is_me` entries equals the caller's
number of membership rows in the room (so zero when the caller is not a
member), and likewise the number of `is_host` entries equals the owner's
number of membership rows — each is exactly one only in states where caller
and owner belong to the room exactly once. -/
theorem wait_room_member_view (s : DBState) (rid : Nat) (token : String)
    (u : SafeUser) (room : RoomRow)
    (hu : get_user_by_token s token = some u)
    (hf : s.rooms.find? (fun r => r.id == rid) = some room)
    (hres : ∀ ru ∈ s.room_users, ru.room_id = rid →
      (s.users.find? (fun w => w.id == ru.user_id)).isSome) :
    ∃ views, wait_room s rid token = Except.ok (room.status, views) ∧
      views.length = countMembers s rid ∧
      (∀ v ∈ views, (v.is_me = true ↔ v.user_id = u.id) ∧
        (v.is_host = true ↔ v.user_id = room.owner)) ∧
      (views.filter (fun v => v.is_me)).length =
        ((s.room_users.filter (fun ru => ru.room_id == rid)).filter
          (fun ru => ru.user_id == u.id)).length ∧
      (views.filter (fun v => v.is_host)).length =
        ((s.room_users.filter (fun ru => ru.room_id == rid)).filter
          (fun ru => ru.user_id == room.owner)).length := by
  have hsome : ∀ ru ∈ s.room_users.filter (fun ru => ru.room_id == rid),
      ((s.users.find? (fun w => w.id == ru.user_id)).map (fun w =>
        (⟨w.id, w.name, w.leader_card_id, ru.select_difficulty,
          u.id == w.id, room.owner == w.id⟩ : RoomUser))).isSome := by
    intro ru hru
    rw [List.mem_filter] at hru
    have hrid : ru.room_id = rid := by simpa using hru.2
    simpa using hres ru hru.1 hrid
  refine ⟨(s.room_users.filter (fun ru => ru.room_id == rid)).filterMap
      (fun ru => (s.users.find? (fun w => w.id == ru.user_id)).map (fun w =>
        (⟨w.id, w.name, w.leader_card_id, ru.select_difficulty,
          u.id == w.id, room.owner == w.id⟩ : RoomUser))),
    by simp [wait_room, hu, hf], ?_, ?_, ?_, ?_⟩
  · exact length_filterMap_of_isSome _ _ hsome
  · intro v hv
    rw [List.mem_filterMap] at hv
    obtain ⟨ru, hru, hgru⟩ := hv
    cases hfind : s.users.find? (fun w => w.id == ru.user_id) with
    | none => rw [hfind] at hgru; simp at hgru
    | some w =>
      rw [hfind] at hgru
      simp only [Option.map_some', Option.some.injEq] at hgru
      subst hgru
      constructor
      · show (u.id == w.id) = true ↔ w.id = u.id
        rw [beq_iff_eq]
        exact eq_comm
      · show (room.owner == w.id) = true ↔ w.id = room.owner
        rw [beq_iff_eq]
        exact eq_comm
  · apply filter_filterMap_length _ _ _ _ hsome
    intro ru hru v hgru
    rw [List.mem_filter] at hru
    cases hfind : s.users.find? (fun w => w.id == ru.user_id) with
    | none => rw [hfind] at hgru; simp at hgru
    | some w =>
      rw [hfind] at hgru
      simp only [Option.map_some', Option.some.injEq] at hgru
      subst hgru
      have hw : w.id = ru.user_id := by simpa using List.find?_some hfind
      show (u.id == w.id) = (ru.user_id == u.id)
      rw [hw]
      by_cases h : u.id = ru.user_id
      · simp [h]
      · simp [h]
        exact fun he => h he.symm
  · apply filter_filterMap_length _ _ _ _ hsome
    intro ru hru v hgru
    rw [List.mem_filter] at hru
    cases hfind : s.users.find? (fun w => w.id == ru.user_id) with
    | none => rw [hfind] at hgru; simp at hgru
    | some w =>
      rw [hfind] at hgru
      simp only [Option.map_some', Option.some.injEq] at hgru
      subst hgru
      have hw : w.id = ru.user_id := by simpa using List.find?_some hfind
      show (room.owner == w.id) = (ru.user_id == room.owner)
      rw [hw]
      by_cases h : room.owner = ru.user_id
      · simp [h]
      · simp [h]
        exact fun he => h he.symm

/-- Witness for C8 (amended) at concrete inputs: alice (the member and owner)
queries room 1 of `sRoom1`; the view list has length 1 = member count, and
exactly one `is_me` and one `is_host` entry. -/
theorem wait_room_member_view_witness :
    ∃ views, wait_room sRoom1 1 "token-a" =
        Except.ok ((⟨1, 10, WaitRoomStatus.Waiting, 1⟩ : RoomRow).status, views) ∧
      views.length = countMembers sRoom1 1 ∧
      (∀ v ∈ views, (v.is_me = true ↔ v.user_id = (⟨1, "alice", 1000⟩ : SafeUser).id) ∧
        (v.is_host = true ↔ v.user_id = (⟨1, 10, WaitRoomStatus.Waiting, 1⟩ : RoomRow).owner)) ∧
      (views.filter (fun v => v.is_me)).length =
        ((sRoom1.room_users.filter (fun ru => ru.room_id == 1)).filter
          (fun ru => ru.user_id == (⟨1, "alice", 1000⟩ : SafeUser).id)).length ∧
      (views.filter (fun v => v.is_host)).length =
        ((sRoom1.room_users.filter (fun ru => ru.room_id == 1)).filter
          (fun ru => ru.user_id ==
            (⟨1, 10, WaitRoomStatus.Waiting, 1⟩ : RoomRow).owner)).length :=
  wait_room_member_view sRoom1 1 "token-a" ⟨1, "alice", 1000⟩
    ⟨1, 10, WaitRoomStatus.Waiting, 1⟩ (by decide) (by decide) (by decide)

theorem length_filterMap_eq_filter_isSome {α β : Type} (l : List α) (g : α → Option β) :
    (l.filterMap g).length = (l.filter (fun a => (g a).isSome)).length := by
  induction l with
  | nil => rfl
  | cons a t ih =>
    cases hg : g a with
    | none => simp [List.filterMap_cons, hg, List.filter_cons, ih]
    | some b => simp [List.filterMap_cons, hg, List.filter_cons, ih]

/-- C9 (modelled from the spec: `end_room` and `result_room` are absent from
`src/app/model.py`): after a member calls `end_room` with judge counts and a
score, `result_room` returns an entry with that member's id carrying exactly
those judge counts and that score; in general `result_room` returns one entry
per membership row that has submitted (both fields recorded) and none for
members who have not. -/
theorem end_room_result_room_round_trip (s : DBState) (token : String) (u : SafeUser)
    (rid : Nat) (j : List Nat) (sc : Int)
    (hu : get_user_by_token s token = some u)
    (hm : ∃ ru ∈ s.room_users, ru.room_id = rid ∧ ru.user_id = u.id) :
    ∃ s', end_room s token rid j sc = Except.ok s' ∧
      (∃ e ∈ result_room s' rid, e.user_id = u.id ∧
        e.judge_count_list = j ∧ e.score = sc) ∧
      (∀ s2 rid2, (result_room s2 rid2).length =
        ((s2.room_users.filter (fun ru => ru.room_id == rid2)).filter
          (fun ru => ru.judge_count_list.isSome && ru.score.isSome)).length) ∧
      (∀ s2 rid2 e, e ∈ result_room s2 rid2 → ∃ ru ∈ s2.room_users,
        ru.room_id = rid2 ∧ ru.user_id = e.user_id ∧
        ru.judge_count_list = some e.judge_count_list ∧ ru.score = some e.score) := by
  obtain ⟨ru0, hru0, hrid0, huid0⟩ := hm
  refine ⟨{ s with room_users := s.room_users.map (fun ru =>
      if ru.room_id == rid && ru.user_id == u.id then
        { ru with judge_count_list := some j, score := some sc }
      else ru) },
    by simp [end_room, hu], ?_, ?_, ?_⟩
  · refine ⟨⟨u.id, j, sc⟩, ?_, rfl, rfl, rfl⟩
    simp only [result_room, List.mem_filterMap, List.mem_filter]
    refine ⟨{ ru0 with judge_count_list := some j, score := some sc }, ⟨?_, ?_⟩, ?_⟩
    · refine List.mem_map.mpr ⟨ru0, hru0, ?_⟩
      simp [hrid0, huid0]
    · simp [hrid0]
    · simp [huid0]
  · intro s2 rid2
    have hlen := length_filterMap_eq_filter_isSome
      (s2.room_users.filter (fun ru => ru.room_id == rid2))
      (fun ru =>
        match ru.judge_count_list, ru.score with
        | some jl, some sc2 => some (⟨ru.user_id, jl, sc2⟩ : ResultUser)
        | _, _ => none)
    rw [result_room, hlen]
    congr 1
    apply List.filter_congr
    intro ru _
    cases h1 : ru.judge_count_list <;> cases h2 : ru.score <;> simp [h1, h2]
  · intro s2 rid2 e he
    simp only [result_room, List.mem_filterMap, List.mem_filter] at he
    obtain ⟨ru, ⟨hmem, hridb⟩, hge⟩ := he
    refine ⟨ru, hmem, by simpa using hridb, ?_⟩
    cases h1 : ru.judge_count_list with
    | none => rw [h1] at hge; simp at hge
    | some jl =>
      cases h2 : ru.score with
      | none => rw [h1, h2] at hge; simp at hge
      | some sc2 =>
        rw [h1, h2] at hge
        simp only [Option.some.injEq] at hge
        subst hge
        exact ⟨rfl, rfl, rfl⟩

/-- Witness for C9 at concrete inputs: alice (member of room 1 of `sRoom1`)
submits judge counts [1,2,3] and score 900; `result_room` then reports the
entry (1, [1,2,3], 900). -/
theorem end_room_result_room_round_trip_witness :
    ∃ s', end_room sRoom1 "token-a" 1 [1, 2, 3] 900 = Except.ok s' ∧
      (∃ e ∈ result_room s' 1, e.user_id = (⟨1, "alice", 1000⟩ : SafeUser).id ∧
        e.judge_count_list = [1, 2, 3] ∧ e.score = 900) ∧
      (∀ s2 rid2, (result_room s2 rid2).length =
        ((s2.room_users.filter (fun ru => ru.room_id == rid2)).filter
          (fun ru => ru.judge_count_list.isSome && ru.score.isSome)).length) ∧
      (∀ s2 rid2 e, e ∈ result_room s2 rid2 → ∃ ru ∈ s2.room_users,
        ru.room_id = rid2 ∧ ru.user_id = e.user_id ∧
        ru.judge_count_list = some e.judge_count_list ∧ ru.score = some e.score) :=
  end_room_result_room_round_trip sRoom1 "token-a" ⟨1, "alice", 1000⟩ 1 [1, 2, 3] 900
    (by decide) (by decide)

end GameServer
